import Mathlib

/-!
# cert-manager-webhook-infoblox: the DNS01 solver of `main.go`

A shallow embedding of `main.go`.  Go strings are Lean strings, a Go `error`
is an `Option String` (`none` is `nil`), a Go map is an association list read
with `List.lookup`.

The three collaborators the solver talks to are not part of the repository and
are taken as parameters, gathered in `Env`:

* `encoding/json` (`Unmarshal`),
* the Kubernetes clientset (`SecretsGet`, i.e. `CoreV1().Secrets(ns).Get(name)`),
* the Infoblox client (`NewConnector`, `GetObject`, `CreateObject`,
  `DeleteObject`).

The provider's state is threaded explicitly through the connector calls, and
every connector call is appended to a ghost trace so that statements about
"which calls were issued" can be made.
-/

set_option autoImplicit false
set_option maxRecDepth 20000

/-- Go's `error` interface: `none` is `nil`. -/
abbrev error := Option String

namespace strings

/-- Go `strings.HasSuffix`. -/
def HasSuffix (s suffix : String) : Bool :=
  suffix.data.isSuffixOf s.data

/-- Go `strings.TrimSuffix`: `s` without the trailing `suffix`, or `s` itself
when it does not end in `suffix`. -/
def TrimSuffix (s suffix : String) : String :=
  if HasSuffix s suffix then
    String.mk (s.data.take (s.data.length - suffix.data.length))
  else s

end strings

namespace strconv

/-- Go `strconv.FormatBool`. -/
def FormatBool (b : Bool) : String :=
  if b then "true" else "false"

end strconv

namespace cmmeta

/-- cert-manager `SecretKeySelector`: the secret name and the key in its data. -/
structure SecretKeySelector where
  Name : String
  Key : String
  deriving DecidableEq

end cmmeta

/-- core/v1 `Secret`, reduced to its `Data` map (`map[string][]byte`). -/
structure Secret where
  Data : List (String × String)
  deriving DecidableEq

/-- The struct `providerConfig` of `main.go` (lines 70-84). -/
structure providerConfig where
  View : String
  Host : String
  Scheme : String
  Port : String
  Version : String
  SslVerify : Bool
  UsernameSecretRef : cmmeta.SecretKeySelector
  PasswordSecretRef : cmmeta.SecretKeySelector
  deriving DecidableEq

namespace providerConfig

/-- The Go zero value of `providerConfig`. -/
def zero : providerConfig :=
  { View := "", Host := "", Scheme := "", Port := "", Version := "", SslVerify := false,
    UsernameSecretRef := { Name := "", Key := "" },
    PasswordSecretRef := { Name := "", Key := "" } }

/-- The struct tags of `providerConfig`, field by field, as written in the source. -/
def tags : List (String × List (String × String)) :=
  [ ("View", [("json", "view")]),
    ("Host", [("json", "host")]),
    ("Scheme", [("json", "scheme"), ("default", "https")]),
    ("Port", [("json", "port"), ("default", "443")]),
    ("Version", [("json", "version"), ("default", "2.8")]),
    ("SslVerify", [("json", "sslVerify"), ("default", "true")]),
    ("UsernameSecretRef", [("json", "usernameSecretRef")]),
    ("PasswordSecretRef", [("json", "passwordSecretRef")]) ]

/-- The expression `_f, _ := _t.FieldByName(field); _f.Tag.Get(key)`: the value of
tag `key` on `field`, and the empty string when the field or the tag is missing. -/
def tagGet (field key : String) : String :=
  match tags.lookup field with
  | some t => (t.lookup key).getD ""
  | none => ""

end providerConfig

namespace ibclient

/-- Infoblox `HostConfig`. -/
structure HostConfig where
  Scheme : String
  Host : String
  Version : String
  Port : String
  deriving DecidableEq

/-- Infoblox `AuthConfig`, the two fields the solver sets. -/
structure AuthConfig where
  Username : String
  Password : String
  deriving DecidableEq

/-- What `NewTransportConfig` was called with. -/
structure TransportConfig where
  SslVerify : String
  HttpRequestTimeout : Nat
  HttpPoolConnections : Nat
  deriving DecidableEq

/-- Infoblox `NewTransportConfig`, kept as the record of its arguments. -/
def NewTransportConfig (sslVerify : String) (httpRequestTimeout httpPoolConnections : Nat) :
    TransportConfig :=
  { SslVerify := sslVerify, HttpRequestTimeout := httpRequestTimeout,
    HttpPoolConnections := httpPoolConnections }

/-- Infoblox `RecordTXT`, with the fields `NewRecordTXT` sets. -/
structure RecordTXT where
  Ref : String
  View : String
  Zone : String
  Name : String
  Text : String
  Ttl : Nat
  UseTtl : Bool
  Comment : String
  Ea : List (String × String)
  deriving DecidableEq

/-- Infoblox `NewRecordTXT`: a record without a reference. -/
def NewRecordTXT (view zone recordname text : String) (ttl : Nat) (useTtl : Bool)
    (comment : String) (eas : List (String × String)) : RecordTXT :=
  { Ref := "", View := view, Zone := zone, Name := recordname, Text := text, Ttl := ttl,
    UseTtl := useTtl, Comment := comment, Ea := eas }

/-- Infoblox `QueryParams`. -/
structure QueryParams where
  forceProxy : Bool
  searchFields : List (String × String)
  deriving DecidableEq

/-- Infoblox `NewQueryParams`. -/
def NewQueryParams (forceProxy : Bool) (searchFields : List (String × String)) : QueryParams :=
  { forceProxy := forceProxy, searchFields := searchFields }

end ibclient

open ibclient

/-- The collaborators of the solver: the JSON decoder, the Kubernetes secret
getter and the Infoblox connector, the latter acting on a provider state `σ`.
`GetObject` yields the contents of its out-parameter together with its error. -/
structure Env (κ σ : Type) where
  Unmarshal : String → providerConfig → providerConfig × error
  SecretsGet : String → String → Secret × error
  NewConnector : HostConfig → AuthConfig → TransportConfig → Except String κ
  GetObject : κ → RecordTXT → String → QueryParams → σ → (List RecordTXT × error) × σ
  CreateObject : κ → RecordTXT → σ → (String × error) × σ
  DeleteObject : κ → String → σ → (String × error) × σ

/-- A call issued to the Infoblox connector. -/
inductive Call where
  | getObject (ref : String) (params : QueryParams)
  | createObject (obj : RecordTXT)
  | deleteObject (ref : String)
  deriving DecidableEq

/-- The provider state together with the trace of connector calls so far. -/
structure World (σ : Type) where
  st : σ
  calls : List Call

/-- cert-manager `ChallengeRequest`, the fields the solver reads; `Config` is
the raw JSON, `none` when the pointer is `nil`. -/
structure ChallengeRequest where
  ResolvedFQDN : String
  Key : String
  ResourceNamespace : String
  Config : Option String
  deriving DecidableEq

/-- The function `loadConfig` (lines 200-212). -/
def loadConfig (unmarshal : String → providerConfig → providerConfig × error)
    (cfgJSON : Option String) : providerConfig × error :=
  let cfg := providerConfig.zero
  match cfgJSON with
  | none => (cfg, none)
  | some raw =>
    match unmarshal raw cfg with
    | (cfg, some err) => (cfg, some err)
    | (cfg, none) => (cfg, none)

namespace solver

variable {κ σ : Type}

/-- The method `solver.getSecret` (lines 262-274).  In the branch for a missing
key the source returns `err`, the error of the lookup that has just succeeded. -/
def getSecret (E : Env κ σ) (sel : cmmeta.SecretKeySelector) (nspace : String) :
    String × error :=
  let got := E.SecretsGet nspace sel.Name
  let secret := got.1
  let err := got.2
  if err ≠ none then ("", err)
  else
    match secret.Data.lookup sel.Key with
    | none => ("", err)
    | some secretData => (strings.TrimSuffix secretData "\n", none)

/-- The method `solver.newInfobloxClient` (lines 216-260): the configuration
after the in-place defaulting, and the connector or the error. -/
def newInfobloxClient (E : Env κ σ) (cfg : providerConfig) (nspace : String) :
    providerConfig × Except String κ :=
  match getSecret E cfg.UsernameSecretRef nspace with
  | (_, some err) => (cfg, .error err)
  | (username, none) =>
    match getSecret E cfg.PasswordSecretRef nspace with
    | (_, some err) => (cfg, .error err)
    | (password, none) =>
      let cfg := if cfg.Port = "" then
          { cfg with Port := providerConfig.tagGet "Port" "default" } else cfg
      let cfg := if cfg.Version = "" then
          { cfg with Version := providerConfig.tagGet "Version" "default" } else cfg
      let hostConfig : HostConfig :=
        { Scheme := "https", Host := cfg.Host, Version := cfg.Version, Port := cfg.Port }
      let authConfig : AuthConfig := { Username := username, Password := password }
      let transportConfig := NewTransportConfig (strconv.FormatBool cfg.SslVerify) 60 10
      match E.NewConnector hostConfig authConfig transportConfig with
      | .error err => (cfg, .error err)
      | .ok c => (cfg, .ok c)

/-- The method `solver.checkForRecord` (lines 276-291). -/
def checkForRecord (E : Env κ σ) (c : κ) (view name text : String) (w : World σ) :
    (String × error) × World σ :=
  let record := NewRecordTXT "" "" "" "" 0 false "" []
  let params := [("name", name), ("text", text), ("view", view)]
  let q := NewQueryParams false params
  let got := E.GetObject c record "" q w.st
  let records := got.1.1
  let err := got.1.2
  let w1 : World σ := { st := got.2, calls := w.calls ++ [Call.getObject "" q] }
  match records with
  | r :: _ => ((r.Ref, err), w1)
  | [] => (("", err), w1)

/-- The method `solver.createTXTRecord` (lines 293-295). -/
def createTXTRecord (E : Env κ σ) (c : κ) (name text view : String) (w : World σ) :
    (String × error) × World σ :=
  let obj := NewRecordTXT view "" name text 0 false "" []
  let got := E.CreateObject c obj w.st
  (got.1, { st := got.2, calls := w.calls ++ [Call.createObject obj] })

/-- The method `solver.deleteTXTRecord` (lines 297-299). -/
def deleteTXTRecord (E : Env κ σ) (c : κ) (ref : String) (w : World σ) :
    (String × error) × World σ :=
  let got := E.DeleteObject c ref w.st
  (got.1, { st := got.2, calls := w.calls ++ [Call.deleteObject ref] })

/-- The method `solver.Present` (lines 101-131).  The error of `checkForRecord`
is bound and never read, as in the source; the log lines have no effect on the
result and are left out. -/
def Present (E : Env κ σ) (ch : ChallengeRequest) (w : World σ) : error × World σ :=
  match loadConfig E.Unmarshal ch.Config with
  | (_, some err) => (some err, w)
  | (cfg, none) =>
    match newInfobloxClient E cfg ch.ResourceNamespace with
    | (_, .error err) => (some err, w)
    | (cfg, .ok c) =>
      let name := strings.TrimSuffix ch.ResolvedFQDN "."
      match checkForRecord E c cfg.View name ch.Key w with
      | ((reference, _), w) =>
        if reference ≠ "" then (none, w)
        else
          match createTXTRecord E c name ch.Key cfg.View w with
          | ((_, some err), w) => (some err, w)
          | ((_, none), w) => (none, w)

/-- The method `solver.CleanUp` (lines 139-172).  The error of `checkForRecord`
is only logged in the source, so it does not appear here. -/
def CleanUp (E : Env κ σ) (ch : ChallengeRequest) (w : World σ) : error × World σ :=
  match loadConfig E.Unmarshal ch.Config with
  | (_, some err) => (some err, w)
  | (cfg, none) =>
    match newInfobloxClient E cfg ch.ResourceNamespace with
    | (_, .error err) => (some err, w)
    | (cfg, .ok c) =>
      let name := strings.TrimSuffix ch.ResolvedFQDN "."
      match checkForRecord E c cfg.View name ch.Key w with
      | ((reference, _), w) =>
        if reference = "" then (none, w)
        else
          match deleteTXTRecord E c reference w with
          | ((_, some err), w) => (some err, w)
          | ((_, none), w) => (none, w)

end solver

/-! ## The collaborators' reference models

`kube` is a secret store in which `Get` fails exactly when the name is empty
or no secret of that name exists in the namespace.  `mem` is an Infoblox provider holding a list of
TXT records: a query returns exactly the stored records whose fields equal all
the search fields, a create stores the object under a reference chosen by the
provider, a delete removes the record stored under a reference. -/

namespace kube

/-- The secrets of a cluster, keyed by (namespace, name). -/
abbrev Store := List ((String × String) × Secret)

/-- The call `CoreV1().Secrets(nspace).Get(ctx, name, opts)` on a store. -/
def SecretsGet (store : Store) (nspace name : String) : Secret × error :=
  if name = "" then ({ Data := [] }, some "resource name may not be empty")
  else
    match store.lookup (nspace, name) with
    | some s => (s, none)
    | none => ({ Data := [] }, some ("secrets \"" ++ name ++ "\" not found"))

end kube

namespace mem

/-- The value of a search field on a stored record. -/
def fieldValue (r : RecordTXT) (k : String) : Option String :=
  if k = "name" then some r.Name
  else if k = "text" then some r.Text
  else if k = "view" then some r.View
  else if k = "zone" then some r.Zone
  else if k = "comment" then some r.Comment
  else none

/-- A stored record satisfies a query when it agrees with every search field. -/
def satisfies (q : QueryParams) (r : RecordTXT) : Bool :=
  q.searchFields.all (fun kv => decide (fieldValue r kv.1 = some kv.2))

/-- The stored records with the given view, name and text. -/
def matching (view name text : String) (st : List RecordTXT) : List RecordTXT :=
  st.filter (fun r => decide (r.View = view ∧ r.Name = name ∧ r.Text = text))

/-- The query: exactly the stored records satisfying it, in stored order; an
empty answer is reported with `notFound` (the Infoblox client reports a
not-found error there, a plain store reports `nil`). -/
def GetObject (notFound : error) (q : QueryParams) (st : List RecordTXT) :
    (List RecordTXT × error) × List RecordTXT :=
  let found := st.filter (satisfies q)
  ((found, if found = [] then notFound else none), st)

/-- The create: the object is stored under the reference `alloc` picks. -/
def CreateObject (alloc : List RecordTXT → RecordTXT → String) (obj : RecordTXT)
    (st : List RecordTXT) : (String × error) × List RecordTXT :=
  let ref := alloc st obj
  ((ref, none), st ++ [{ obj with Ref := ref }])

/-- The delete: the records stored under `ref` are removed; an unknown
reference is an error. -/
def DeleteObject (ref : String) (st : List RecordTXT) : (String × error) × List RecordTXT :=
  if st.any (fun r => decide (r.Ref = ref)) then
    ((ref, none), st.filter (fun r => decide (r.Ref ≠ ref)))
  else (("", some "not found"), st)

/-- The provider hands out references that are non-empty and not borne by any
stored record. -/
def Fresh (alloc : List RecordTXT → RecordTXT → String) : Prop :=
  ∀ st obj, alloc st obj ≠ "" ∧ ∀ r ∈ st, r.Ref ≠ alloc st obj

/-- A concrete allocator: a reference longer than every stored one. -/
def longRef (st : List RecordTXT) (_obj : RecordTXT) : String :=
  String.mk (List.replicate ((st.map (fun r => r.Ref.length)).foldr max 0 + 1) (Char.ofNat 114))

end mem

/-- The environment whose Infoblox side is the `mem` provider. -/
def memEnv {κ : Type} (unmarshal : String → providerConfig → providerConfig × error)
    (secretsGet : String → String → Secret × error)
    (newConnector : HostConfig → AuthConfig → TransportConfig → Except String κ)
    (alloc : List RecordTXT → RecordTXT → String) (notFound : error) :
    Env κ (List RecordTXT) :=
  { Unmarshal := unmarshal
    SecretsGet := secretsGet
    NewConnector := newConnector
    GetObject := fun _ _ _ q st => mem.GetObject notFound q st
    CreateObject := fun _ obj st => mem.CreateObject alloc obj st
    DeleteObject := fun _ ref st => mem.DeleteObject ref st }

namespace solver

/-- The query `checkForRecord` sends for a view, a record name and a text. -/
def recordQuery (view name text : String) : QueryParams :=
  NewQueryParams false [("name", name), ("text", text), ("view", view)]

end solver

/-! ## Concrete scenarios

A cluster with one secret, two issuer configurations (neither mentions
`sslVerify` or `scheme`; the second gives `port` and `version`), a connector
constructor that hands back what it was given, and providers that misbehave on
queries. -/

namespace demo

/-- One secret, `infoblox-credentials` in namespace `default`. -/
def store : kube.Store :=
  [(("default", "infoblox-credentials"),
    { Data := [("username", "admin\n"), ("password", "s3cret\n\n")] })]

/-- An issuer configuration giving the view, the host and the two secret
references, and nothing else. -/
def rawConfig : String :=
  "\x7b\"view\":\"internal\",\"host\":\"ib.example.com\"," ++
  "\"usernameSecretRef\":\x7b\"name\":\"infoblox-credentials\",\"key\":\"username\"\x7d," ++
  "\"passwordSecretRef\":\x7b\"name\":\"infoblox-credentials\",\"key\":\"password\"\x7d\x7d"

/-- The same configuration with `"port":"8443"` and `"version":"2.11"` added. -/
def rawConfigPort : String :=
  "\x7b\"view\":\"internal\",\"host\":\"ib.example.com\",\"port\":\"8443\",\"version\":\"2.11\"," ++
  "\"usernameSecretRef\":\x7b\"name\":\"infoblox-credentials\",\"key\":\"username\"\x7d," ++
  "\"passwordSecretRef\":\x7b\"name\":\"infoblox-credentials\",\"key\":\"password\"\x7d\x7d"

/-- The same configuration with `scheme`, `port` and `version` given as empty
strings. -/
def rawConfigEmpty : String :=
  "\x7b\"view\":\"internal\",\"host\":\"ib.example.com\"," ++
  "\"scheme\":\"\",\"port\":\"\",\"version\":\"\"," ++
  "\"usernameSecretRef\":\x7b\"name\":\"infoblox-credentials\",\"key\":\"username\"\x7d," ++
  "\"passwordSecretRef\":\x7b\"name\":\"infoblox-credentials\",\"key\":\"password\"\x7d\x7d"

/-- What `json.Unmarshal` does on the three documents above: the fields present
are set, every other field keeps the value it had; anything else is taken to
be malformed. -/
def Unmarshal (raw : String) (cfg : providerConfig) : providerConfig × error :=
  if raw = rawConfig then
    ({ cfg with View := "internal", Host := "ib.example.com",
                UsernameSecretRef := { Name := "infoblox-credentials", Key := "username" },
                PasswordSecretRef := { Name := "infoblox-credentials", Key := "password" } },
     none)
  else if raw = rawConfigPort then
    ({ cfg with View := "internal", Host := "ib.example.com", Port := "8443",
                Version := "2.11",
                UsernameSecretRef := { Name := "infoblox-credentials", Key := "username" },
                PasswordSecretRef := { Name := "infoblox-credentials", Key := "password" } },
     none)
  else if raw = rawConfigEmpty then
    ({ cfg with View := "internal", Host := "ib.example.com", Scheme := "", Port := "",
                Version := "",
                UsernameSecretRef := { Name := "infoblox-credentials", Key := "username" },
                PasswordSecretRef := { Name := "infoblox-credentials", Key := "password" } },
     none)
  else (cfg, some "invalid character")

/-- A connector is represented by the three configurations it was built from. -/
abbrev Connector := HostConfig × AuthConfig × TransportConfig

/-- A constructor that always succeeds. -/
def NewConnector (h : HostConfig) (a : AuthConfig) (t : TransportConfig) :
    Except String Connector :=
  .ok (h, a, t)

/-- The `mem` provider behind the cluster and the decoder above. -/
def env : Env Connector (List RecordTXT) :=
  memEnv Unmarshal (kube.SecretsGet store) NewConnector mem.longRef none

/-- A provider whose every query fails without returning anything. -/
def queryFailsEnv : Env Connector (List RecordTXT) :=
  { env with GetObject := fun _ _ _ _ st => (([], some "connection refused"), st) }

/-- A provider whose query fills in the matching records and reports an error
all the same. -/
def queryFailsLateEnv : Env Connector (List RecordTXT) :=
  { env with GetObject := fun _ _ _ q st =>
      ((st.filter (mem.satisfies q), some "cannot unmarshal"), st) }

/-- The challenge for `foo.com.` with key `abc`. -/
def request : ChallengeRequest :=
  { ResolvedFQDN := "foo.com.", Key := "abc", ResourceNamespace := "default",
    Config := some rawConfig }

/-- The challenge for `_acme-challenge.example.com`, fqdn to be filled in. -/
def acme (fqdn : String) : ChallengeRequest :=
  { ResolvedFQDN := fqdn, Key := "abc", ResourceNamespace := "default",
    Config := some rawConfig }

/-- The configuration decoded from `rawConfig`. -/
def cfg0 : providerConfig :=
  { View := "internal", Host := "ib.example.com", Scheme := "", Port := "", Version := "",
    SslVerify := false,
    UsernameSecretRef := { Name := "infoblox-credentials", Key := "username" },
    PasswordSecretRef := { Name := "infoblox-credentials", Key := "password" } }

/-- The configuration after `newInfobloxClient`. -/
def cfg : providerConfig :=
  { cfg0 with Port := "443", Version := "2.8" }

/-- The connector built for `rawConfig`. -/
def conn : Connector :=
  ({ Scheme := "https", Host := "ib.example.com", Version := "2.8", Port := "443" },
   { Username := "admin", Password := "s3cret\n" },
   { SslVerify := "false", HttpRequestTimeout := 60, HttpPoolConnections := 10 })

/-- The record a `Present` of `request` leaves at an empty provider. -/
def created : RecordTXT :=
  { Ref := "r", View := "internal", Zone := "", Name := "foo.com", Text := "abc", Ttl := 0,
    UseTtl := false, Comment := "", Ea := [] }

/-- The empty world. -/
def world0 : World (List RecordTXT) := { st := [], calls := [] }

/-- The record a `Present` of `acme` leaves at an empty provider. -/
def acmeRecord : RecordTXT :=
  { Ref := "r", View := "internal", Zone := "", Name := "_acme-challenge.example.com",
    Text := "abc", Ttl := 0, UseTtl := false, Comment := "", Ea := [] }

end demo

/-! ## Strings -/

namespace strings

theorem HasSuffix_append (n s : String) : HasSuffix (n ++ s) s = true := by
  simp [HasSuffix, String.data_append]

theorem TrimSuffix_append (n s : String) : TrimSuffix (n ++ s) s = n := by
  simp [TrimSuffix, HasSuffix_append, String.data_append]

theorem TrimSuffix_of_not_HasSuffix (s suffix : String) (h : HasSuffix s suffix = false) :
    TrimSuffix s suffix = s := by
  simp [TrimSuffix, h]

end strings

/-! ## Credentials and the connector configuration -/

namespace solver

variable {κ σ : Type}

theorem getSecret_of_get_error (E : Env κ σ) (sel : cmmeta.SecretKeySelector) (nspace : String)
    (e : String) (h : (E.SecretsGet nspace sel.Name).2 = some e) :
    getSecret E sel nspace = ("", some e) := by
  simp [getSecret, h]

theorem getSecret_of_key_missing (E : Env κ σ) (sel : cmmeta.SecretKeySelector)
    (nspace : String) (h : (E.SecretsGet nspace sel.Name).2 = none)
    (hk : (E.SecretsGet nspace sel.Name).1.Data.lookup sel.Key = none) :
    getSecret E sel nspace = ("", none) := by
  simp [getSecret, h, hk]

theorem getSecret_of_found (E : Env κ σ) (sel : cmmeta.SecretKeySelector) (nspace v : String)
    (h : (E.SecretsGet nspace sel.Name).2 = none)
    (hk : (E.SecretsGet nspace sel.Name).1.Data.lookup sel.Key = some v) :
    getSecret E sel nspace = (strings.TrimSuffix v "\n", none) := by
  simp [getSecret, h, hk]

theorem tagGet_Port : providerConfig.tagGet "Port" "default" = "443" := by decide

theorem tagGet_Version : providerConfig.tagGet "Version" "default" = "2.8" := by decide

/-- What `newInfobloxClient` does once both credentials resolve. -/
theorem newInfobloxClient_of_secrets (E : Env κ σ) (cfg : providerConfig) (nspace u p : String)
    (hu : getSecret E cfg.UsernameSecretRef nspace = (u, none))
    (hp : getSecret E cfg.PasswordSecretRef nspace = (p, none)) :
    newInfobloxClient E cfg nspace =
      ({ cfg with Port := if cfg.Port = "" then "443" else cfg.Port,
                  Version := if cfg.Version = "" then "2.8" else cfg.Version },
        E.NewConnector
          { Scheme := "https", Host := cfg.Host,
            Version := if cfg.Version = "" then "2.8" else cfg.Version,
            Port := if cfg.Port = "" then "443" else cfg.Port }
          { Username := u, Password := p }
          (NewTransportConfig (strconv.FormatBool cfg.SslVerify) 60 10)) := by
  simp only [newInfobloxClient, hu, hp, tagGet_Port, tagGet_Version]
  by_cases h1 : cfg.Port = "" <;> by_cases h2 : cfg.Version = "" <;> simp [h1, h2] <;>
    split <;> simp_all

/-- The method `newInfobloxClient` never touches the view. -/
theorem newInfobloxClient_View (E : Env κ σ) (cfg : providerConfig) (nspace : String) :
    (newInfobloxClient E cfg nspace).1.View = cfg.View := by
  unfold newInfobloxClient
  split
  · rfl
  · split
    · rfl
    · by_cases h1 : cfg.Port = "" <;> by_cases h2 : cfg.Version = "" <;> simp [h1, h2] <;>
        split <;> simp_all

/-- A failed read of the user name stops `newInfobloxClient`. -/
theorem newInfobloxClient_of_username_error (E : Env κ σ) (cfg : providerConfig)
    (nspace e : String) (h : (getSecret E cfg.UsernameSecretRef nspace).2 = some e) :
    newInfobloxClient E cfg nspace = (cfg, .error e) := by
  unfold newInfobloxClient
  split
  · next x err heq =>
    rw [heq] at h
    cases h
    rfl
  · next x heq =>
    rw [heq] at h
    cases h

/-- A failed read of the password stops `newInfobloxClient`. -/
theorem newInfobloxClient_of_password_error (E : Env κ σ) (cfg : providerConfig)
    (nspace e : String) (hu : (getSecret E cfg.UsernameSecretRef nspace).2 = none)
    (h : (getSecret E cfg.PasswordSecretRef nspace).2 = some e) :
    newInfobloxClient E cfg nspace = (cfg, .error e) := by
  unfold newInfobloxClient
  split
  · next x err heq =>
    rw [heq] at hu
    cases hu
  · next x heq =>
    split
    · next y err heq2 =>
      rw [heq2] at h
      cases h
      rfl
    · next y heq2 =>
      rw [heq2] at h
      cases h

end solver

/-! ## The two operations, once the configuration and the connector are there -/

namespace solver

variable {κ σ : Type}

theorem checkForRecord_world (E : Env κ σ) (c : κ) (view name text : String) (w : World σ) :
    (checkForRecord E c view name text w).2 =
      { st := (E.GetObject c (NewRecordTXT "" "" "" "" 0 false "" []) ""
                (recordQuery view name text) w.st).2,
        calls := w.calls ++ [Call.getObject "" (recordQuery view name text)] } := by
  simp only [checkForRecord, recordQuery]
  split <;> rfl

theorem checkForRecord_nil (E : Env κ σ) (c : κ) (view name text : String) (w : World σ)
    (h : (E.GetObject c (NewRecordTXT "" "" "" "" 0 false "" []) ""
            (recordQuery view name text) w.st).1.1 = []) :
    (checkForRecord E c view name text w).1.1 = "" := by
  unfold recordQuery at h
  unfold checkForRecord
  simp only [h]

theorem checkForRecord_cons (E : Env κ σ) (c : κ) (view name text : String) (w : World σ)
    (r : RecordTXT) (rs : List RecordTXT)
    (h : (E.GetObject c (NewRecordTXT "" "" "" "" 0 false "" []) ""
            (recordQuery view name text) w.st).1.1 = r :: rs) :
    (checkForRecord E c view name text w).1.1 = r.Ref := by
  unfold recordQuery at h
  unfold checkForRecord
  simp only [h]

theorem checkForRecord_err (E : Env κ σ) (c : κ) (view name text : String) (w : World σ) :
    (checkForRecord E c view name text w).1.2 =
      (E.GetObject c (NewRecordTXT "" "" "" "" 0 false "" []) ""
        (recordQuery view name text) w.st).1.2 := by
  simp only [checkForRecord, recordQuery]
  split <;> rfl

theorem Present_eq (E : Env κ σ) (ch : ChallengeRequest) (w : World σ)
    (cfg0 cfg : providerConfig) (c : κ)
    (hcfg : loadConfig E.Unmarshal ch.Config = (cfg0, none))
    (hcl : newInfobloxClient E cfg0 ch.ResourceNamespace = (cfg, .ok c)) :
    Present E ch w =
      if (checkForRecord E c cfg.View (strings.TrimSuffix ch.ResolvedFQDN ".") ch.Key w).1.1 ≠ ""
      then (none, (checkForRecord E c cfg.View (strings.TrimSuffix ch.ResolvedFQDN ".")
                    ch.Key w).2)
      else
        ((createTXTRecord E c (strings.TrimSuffix ch.ResolvedFQDN ".") ch.Key cfg.View
            (checkForRecord E c cfg.View (strings.TrimSuffix ch.ResolvedFQDN ".")
              ch.Key w).2).1.2,
         (createTXTRecord E c (strings.TrimSuffix ch.ResolvedFQDN ".") ch.Key cfg.View
            (checkForRecord E c cfg.View (strings.TrimSuffix ch.ResolvedFQDN ".")
              ch.Key w).2).2) := by
  simp only [Present, hcfg, hcl]
  split_ifs with h
  · rfl
  · split <;> simp_all

theorem CleanUp_eq (E : Env κ σ) (ch : ChallengeRequest) (w : World σ)
    (cfg0 cfg : providerConfig) (c : κ)
    (hcfg : loadConfig E.Unmarshal ch.Config = (cfg0, none))
    (hcl : newInfobloxClient E cfg0 ch.ResourceNamespace = (cfg, .ok c)) :
    CleanUp E ch w =
      if (checkForRecord E c cfg.View (strings.TrimSuffix ch.ResolvedFQDN ".") ch.Key w).1.1 = ""
      then (none, (checkForRecord E c cfg.View (strings.TrimSuffix ch.ResolvedFQDN ".")
                    ch.Key w).2)
      else
        ((deleteTXTRecord E c
            (checkForRecord E c cfg.View (strings.TrimSuffix ch.ResolvedFQDN ".") ch.Key w).1.1
            (checkForRecord E c cfg.View (strings.TrimSuffix ch.ResolvedFQDN ".")
              ch.Key w).2).1.2,
         (deleteTXTRecord E c
            (checkForRecord E c cfg.View (strings.TrimSuffix ch.ResolvedFQDN ".") ch.Key w).1.1
            (checkForRecord E c cfg.View (strings.TrimSuffix ch.ResolvedFQDN ".")
              ch.Key w).2).2) := by
  simp only [CleanUp, hcfg, hcl]
  split_ifs with h
  · rfl
  · split <;> simp_all

end solver

/-! ## The operations over the `mem` provider -/

namespace mem

theorem satisfies_recordQuery (view name text : String) (r : RecordTXT) :
    satisfies (solver.recordQuery view name text) r
      = decide (r.View = view ∧ r.Name = name ∧ r.Text = text) := by
  rw [Bool.eq_iff_iff]
  simp [satisfies, solver.recordQuery, NewQueryParams, fieldValue]
  tauto

theorem filter_satisfies (view name text : String) (st : List RecordTXT) :
    st.filter (satisfies (solver.recordQuery view name text)) = matching view name text st := by
  unfold matching
  congr 1
  funext r
  exact satisfies_recordQuery view name text r

theorem matching_append (view name text : String) (s t : List RecordTXT) :
    matching view name text (s ++ t) = matching view name text s ++ matching view name text t := by
  simp [matching]

theorem matching_single (view name text ref : String) :
    matching view name text [{ NewRecordTXT view "" name text 0 false "" [] with Ref := ref }]
      = [{ NewRecordTXT view "" name text 0 false "" [] with Ref := ref }] := by
  simp [matching, NewRecordTXT]

theorem matching_single_other (view name text text2 ref : String) (h : text2 ≠ text) :
    matching view name text [{ NewRecordTXT view "" name text2 0 false "" [] with Ref := ref }]
      = [] := by
  simp [matching, NewRecordTXT, h]

theorem longRef_length (st : List RecordTXT) (obj : RecordTXT) :
    (longRef st obj).length = (st.map (fun r => r.Ref.length)).foldr max 0 + 1 := by
  show (List.replicate _ _).length = _
  exact List.length_replicate _ _

theorem length_le_foldr_max (l : List Nat) (n : Nat) (h : n ∈ l) : n ≤ l.foldr max 0 := by
  induction l with
  | nil => cases h
  | cons a t ih =>
    rcases List.mem_cons.mp h with h | h
    · subst h; simp
    · have := ih h
      simp only [List.foldr_cons]
      omega

theorem longRef_fresh : Fresh longRef := by
  intro st obj
  constructor
  · intro h
    have := longRef_length st obj
    rw [h] at this
    simp at this
  · intro r hr h
    have hl := longRef_length st obj
    rw [← h] at hl
    have := length_le_foldr_max (st.map (fun r => r.Ref.length)) r.Ref.length
      (List.mem_map.mpr ⟨r, hr, rfl⟩)
    omega

end mem

namespace solver

variable {κ : Type}

theorem checkForRecord_mem_nil (unmarshal : String → providerConfig → providerConfig × error)
    (secretsGet : String → String → Secret × error)
    (newConnector : HostConfig → AuthConfig → TransportConfig → Except String κ)
    (alloc : List RecordTXT → RecordTXT → String) (notFound : error)
    (c : κ) (view name text : String) (w : World (List RecordTXT))
    (h : mem.matching view name text w.st = []) :
    checkForRecord (memEnv unmarshal secretsGet newConnector alloc notFound) c view name text w
      = (("", notFound),
         { st := w.st, calls := w.calls ++ [Call.getObject "" (recordQuery view name text)] }) := by
  have hf := mem.filter_satisfies view name text w.st
  rw [h] at hf
  unfold recordQuery at hf
  simp only [checkForRecord, memEnv, mem.GetObject, recordQuery, hf]
  simp

theorem checkForRecord_mem_cons (unmarshal : String → providerConfig → providerConfig × error)
    (secretsGet : String → String → Secret × error)
    (newConnector : HostConfig → AuthConfig → TransportConfig → Except String κ)
    (alloc : List RecordTXT → RecordTXT → String) (notFound : error)
    (c : κ) (view name text : String) (w : World (List RecordTXT))
    (r : RecordTXT) (rs : List RecordTXT)
    (h : mem.matching view name text w.st = r :: rs) :
    checkForRecord (memEnv unmarshal secretsGet newConnector alloc notFound) c view name text w
      = ((r.Ref, none),
         { st := w.st, calls := w.calls ++ [Call.getObject "" (recordQuery view name text)] }) := by
  have hf := mem.filter_satisfies view name text w.st
  rw [h] at hf
  unfold recordQuery at hf
  simp only [checkForRecord, memEnv, mem.GetObject, recordQuery, hf]
  simp

end solver

/-! ## Reconciliation over the `mem` provider -/

namespace solver

variable {κ : Type}

/-- The run of `Present` when no matching record is stored: one query, one create, and
the created record stored under the allocated reference. -/
theorem Present_mem_absent (unmarshal : String → providerConfig → providerConfig × error)
    (secretsGet : String → String → Secret × error)
    (newConnector : HostConfig → AuthConfig → TransportConfig → Except String κ)
    (alloc : List RecordTXT → RecordTXT → String) (notFound : error)
    (ch : ChallengeRequest) (w : World (List RecordTXT)) (cfg0 cfg : providerConfig) (c : κ)
    (hcfg : loadConfig unmarshal ch.Config = (cfg0, none))
    (hcl : newInfobloxClient (memEnv unmarshal secretsGet newConnector alloc notFound) cfg0
            ch.ResourceNamespace = (cfg, .ok c))
    (hnone : mem.matching cfg.View (strings.TrimSuffix ch.ResolvedFQDN ".") ch.Key w.st = []) :
    Present (memEnv unmarshal secretsGet newConnector alloc notFound) ch w =
      (none,
       { st := w.st ++
           [{ NewRecordTXT cfg.View "" (strings.TrimSuffix ch.ResolvedFQDN ".") ch.Key 0 false
                "" [] with
              Ref := alloc w.st (NewRecordTXT cfg.View "" (strings.TrimSuffix ch.ResolvedFQDN ".")
                ch.Key 0 false "" []) }],
         calls := w.calls ++
           [Call.getObject "" (recordQuery cfg.View (strings.TrimSuffix ch.ResolvedFQDN ".")
              ch.Key),
            Call.createObject (NewRecordTXT cfg.View "" (strings.TrimSuffix ch.ResolvedFQDN ".")
              ch.Key 0 false "" [])] }) := by
  rw [Present_eq _ ch w cfg0 cfg c hcfg hcl,
    checkForRecord_mem_nil unmarshal secretsGet newConnector alloc notFound c _ _ _ w hnone]
  simp [createTXTRecord, memEnv, mem.CreateObject]

/-- The run of `Present` when a matching record with a non-empty reference is stored: one
query and nothing else. -/
theorem Present_mem_present (unmarshal : String → providerConfig → providerConfig × error)
    (secretsGet : String → String → Secret × error)
    (newConnector : HostConfig → AuthConfig → TransportConfig → Except String κ)
    (alloc : List RecordTXT → RecordTXT → String) (notFound : error)
    (ch : ChallengeRequest) (w : World (List RecordTXT)) (cfg0 cfg : providerConfig) (c : κ)
    (r : RecordTXT) (rs : List RecordTXT)
    (hcfg : loadConfig unmarshal ch.Config = (cfg0, none))
    (hcl : newInfobloxClient (memEnv unmarshal secretsGet newConnector alloc notFound) cfg0
            ch.ResourceNamespace = (cfg, .ok c))
    (hsome : mem.matching cfg.View (strings.TrimSuffix ch.ResolvedFQDN ".") ch.Key w.st = r :: rs)
    (href : r.Ref ≠ "") :
    Present (memEnv unmarshal secretsGet newConnector alloc notFound) ch w =
      (none,
       { st := w.st,
         calls := w.calls ++
           [Call.getObject "" (recordQuery cfg.View (strings.TrimSuffix ch.ResolvedFQDN ".")
              ch.Key)] }) := by
  rw [Present_eq _ ch w cfg0 cfg c hcfg hcl,
    checkForRecord_mem_cons unmarshal secretsGet newConnector alloc notFound c _ _ _ w r rs hsome]
  simp [href]

/-- The run of `CleanUp` when a matching record with a non-empty reference is stored: one
query, one delete of the first match's reference. -/
theorem CleanUp_mem_present (unmarshal : String → providerConfig → providerConfig × error)
    (secretsGet : String → String → Secret × error)
    (newConnector : HostConfig → AuthConfig → TransportConfig → Except String κ)
    (alloc : List RecordTXT → RecordTXT → String) (notFound : error)
    (ch : ChallengeRequest) (w : World (List RecordTXT)) (cfg0 cfg : providerConfig) (c : κ)
    (r : RecordTXT) (rs : List RecordTXT)
    (hcfg : loadConfig unmarshal ch.Config = (cfg0, none))
    (hcl : newInfobloxClient (memEnv unmarshal secretsGet newConnector alloc notFound) cfg0
            ch.ResourceNamespace = (cfg, .ok c))
    (hsome : mem.matching cfg.View (strings.TrimSuffix ch.ResolvedFQDN ".") ch.Key w.st = r :: rs)
    (href : r.Ref ≠ "") :
    CleanUp (memEnv unmarshal secretsGet newConnector alloc notFound) ch w =
      (none,
       { st := w.st.filter (fun x => decide (x.Ref ≠ r.Ref)),
         calls := w.calls ++
           [Call.getObject "" (recordQuery cfg.View (strings.TrimSuffix ch.ResolvedFQDN ".")
              ch.Key),
            Call.deleteObject r.Ref] }) := by
  have hmem : r ∈ w.st := by
    have : r ∈ mem.matching cfg.View (strings.TrimSuffix ch.ResolvedFQDN ".") ch.Key w.st := by
      rw [hsome]; exact List.mem_cons_self _ _
    exact List.mem_of_mem_filter this
  have hany : (w.st.any fun x => decide (x.Ref = r.Ref)) = true :=
    List.any_eq_true.mpr ⟨r, hmem, by simp⟩
  rw [CleanUp_eq _ ch w cfg0 cfg c hcfg hcl,
    checkForRecord_mem_cons unmarshal secretsGet newConnector alloc notFound c _ _ _ w r rs hsome]
  simp only [href, if_false, deleteTXTRecord, memEnv, mem.DeleteObject, hany, if_true]
  simp

end solver

/-! ## The claims -/

namespace solver

variable {κ σ : Type}

/-- C1. `Present` is idempotent over the `mem` provider, whose references are
never empty: starting from a state with no record matching (view, trimmed
fqdn, key), with the configuration decoded and the connector built, two calls
of `Present` with the same request both return no error, the first stores the
one new record, the second changes nothing at the provider and issues a single
query and no create, and exactly one matching record is stored in the end. -/
theorem present_idempotent (unmarshal : String → providerConfig → providerConfig × error)
    (secretsGet : String → String → Secret × error)
    (newConnector : HostConfig → AuthConfig → TransportConfig → Except String κ)
    (alloc : List RecordTXT → RecordTXT → String) (notFound : error)
    (ch : ChallengeRequest) (w : World (List RecordTXT)) (cfg0 cfg : providerConfig) (c : κ)
    (hcfg : loadConfig unmarshal ch.Config = (cfg0, none))
    (hcl : newInfobloxClient (memEnv unmarshal secretsGet newConnector alloc notFound) cfg0
            ch.ResourceNamespace = (cfg, .ok c))
    (hne : ∀ st obj, alloc st obj ≠ "")
    (hnone : mem.matching cfg.View (strings.TrimSuffix ch.ResolvedFQDN ".") ch.Key w.st = []) :
    let E := memEnv unmarshal secretsGet newConnector alloc notFound
    let name := strings.TrimSuffix ch.ResolvedFQDN "."
    let first := Present E ch w
    let second := Present E ch first.2
    first.1 = none ∧ second.1 = none ∧
    first.2.st = w.st ++ [{ NewRecordTXT cfg.View "" name ch.Key 0 false "" [] with
                            Ref := alloc w.st (NewRecordTXT cfg.View "" name ch.Key 0 false "" []) }] ∧
    second.2.st = first.2.st ∧
    (mem.matching cfg.View name ch.Key second.2.st).length = 1 ∧
    second.2.calls = first.2.calls ++ [Call.getObject "" (recordQuery cfg.View name ch.Key)] := by
  intro E name first second
  have h1 : first = _ :=
    Present_mem_absent unmarshal secretsGet newConnector alloc notFound ch w cfg0 cfg c hcfg hcl
      hnone
  have hm : mem.matching cfg.View name ch.Key first.2.st =
      [{ NewRecordTXT cfg.View "" name ch.Key 0 false "" [] with
         Ref := alloc w.st (NewRecordTXT cfg.View "" name ch.Key 0 false "" []) }] := by
    rw [h1]
    simp only [mem.matching_append, hnone, List.nil_append]
    exact mem.matching_single _ _ _ _
  have h2 : second = _ :=
    Present_mem_present unmarshal secretsGet newConnector alloc notFound ch first.2 cfg0 cfg c
      _ [] hcfg hcl hm (hne w.st _)
  refine ⟨by rw [h1], by rw [h2], by rw [h1], by rw [h2], ?_, by rw [h2]⟩
  rw [h2]
  simp only [hm, List.length_singleton]

/-- C2. Disambiguation by key over the `mem` provider: from a state with no
record matching either key, `Present` for key `K1` then for `K2` stores two
distinct records under distinct references, and the following `CleanUp` for
`K1` issues one delete, of the `K1` record's reference; afterwards the `K2`
record and every record stored before are still there and the `K1` record is
gone. -/
theorem cleanup_disambiguates_by_key
    (unmarshal : String → providerConfig → providerConfig × error)
    (secretsGet : String → String → Secret × error)
    (newConnector : HostConfig → AuthConfig → TransportConfig → Except String κ)
    (alloc : List RecordTXT → RecordTXT → String) (notFound : error)
    (ch : ChallengeRequest) (K2 : String) (w : World (List RecordTXT))
    (cfg0 cfg : providerConfig) (c : κ)
    (hcfg : loadConfig unmarshal ch.Config = (cfg0, none))
    (hcl : newInfobloxClient (memEnv unmarshal secretsGet newConnector alloc notFound) cfg0
            ch.ResourceNamespace = (cfg, .ok c))
    (hfresh : mem.Fresh alloc)
    (hK : ch.Key ≠ K2)
    (hnone1 : mem.matching cfg.View (strings.TrimSuffix ch.ResolvedFQDN ".") ch.Key w.st = [])
    (hnone2 : mem.matching cfg.View (strings.TrimSuffix ch.ResolvedFQDN ".") K2 w.st = []) :
    let E := memEnv unmarshal secretsGet newConnector alloc notFound
    let name := strings.TrimSuffix ch.ResolvedFQDN "."
    let ch2 : ChallengeRequest := { ch with Key := K2 }
    let p1 := Present E ch w
    let p2 := Present E ch2 p1.2
    let cl := CleanUp E ch p2.2
    let r1 : RecordTXT := { NewRecordTXT cfg.View "" name ch.Key 0 false "" [] with
        Ref := alloc w.st (NewRecordTXT cfg.View "" name ch.Key 0 false "" []) }
    let r2 : RecordTXT := { NewRecordTXT cfg.View "" name K2 0 false "" [] with
        Ref := alloc (w.st ++ [r1]) (NewRecordTXT cfg.View "" name K2 0 false "" []) }
    p1.1 = none ∧ p2.1 = none ∧ cl.1 = none ∧
    p2.2.st = w.st ++ [r1, r2] ∧ r1 ≠ r2 ∧ r1.Ref ≠ r2.Ref ∧
    r1.Text = ch.Key ∧ r2.Text = K2 ∧
    cl.2.calls = p2.2.calls ++
      [Call.getObject "" (recordQuery cfg.View name ch.Key), Call.deleteObject r1.Ref] ∧
    cl.2.st = w.st ++ [r2] ∧
    r2 ∈ cl.2.st ∧ (∀ r ∈ w.st, r ∈ cl.2.st) ∧ r1 ∉ cl.2.st := by
  intro E name ch2 p1 p2 cl r1 r2
  have hne : r1.Ref ≠ r2.Ref := (hfresh (w.st ++ [r1]) _).2 r1 (by simp)
  have hr1 : ∀ r ∈ w.st, r.Ref ≠ r1.Ref := (hfresh w.st _).2
  have h1 : p1 = _ :=
    Present_mem_absent unmarshal secretsGet newConnector alloc notFound ch w cfg0 cfg c hcfg hcl
      hnone1
  have hm2 : mem.matching cfg.View (strings.TrimSuffix ch2.ResolvedFQDN ".") ch2.Key p1.2.st
      = [] := by
    rw [h1]
    show mem.matching cfg.View name K2 (w.st ++ [r1]) = []
    rw [mem.matching_append, hnone2, List.nil_append]
    exact mem.matching_single_other _ _ _ _ _ hK
  have h2 : p2 = _ :=
    Present_mem_absent unmarshal secretsGet newConnector alloc notFound ch2 p1.2 cfg0 cfg c hcfg
      hcl hm2
  have hst2 : p2.2.st = w.st ++ [r1, r2] := by
    rw [h2, h1]
    show (w.st ++ [r1]) ++ [r2] = w.st ++ [r1, r2]
    simp
  have hm3 : mem.matching cfg.View (strings.TrimSuffix ch.ResolvedFQDN ".") ch.Key p2.2.st
      = [r1] := by
    rw [hst2]
    show mem.matching cfg.View name ch.Key (w.st ++ ([r1] ++ [r2])) = [r1]
    rw [mem.matching_append, mem.matching_append, hnone1, List.nil_append,
      mem.matching_single_other _ _ _ _ _ (Ne.symm hK), List.append_nil]
    exact mem.matching_single _ _ _ _
  have h3 : cl = _ :=
    CleanUp_mem_present unmarshal secretsGet newConnector alloc notFound ch p2.2 cfg0 cfg c
      r1 [] hcfg hcl hm3 (hfresh w.st _).1
  have hst3 : cl.2.st = w.st ++ [r2] := by
    rw [h3]
    show List.filter (fun x => decide (x.Ref ≠ r1.Ref)) p2.2.st = w.st ++ [r2]
    rw [hst2, List.filter_append]
    congr 1
    · exact List.filter_eq_self.mpr (fun r hr => by simpa using hr1 r hr)
    · simp [List.filter_cons, Ne.symm hne]
  have hrr : r1 ≠ r2 := fun h => hne (congrArg RecordTXT.Ref h)
  refine ⟨by rw [h1], by rw [h2], by rw [h3], hst2, hrr, hne, rfl, rfl, by rw [h3], hst3,
    ?_, ?_, ?_⟩
  · rw [hst3]; simp
  · intro r hr; rw [hst3]; simp [hr]
  · rw [hst3]
    intro hin
    rcases List.mem_append.mp hin with h | h
    · exact hr1 r1 h rfl
    · exact hrr (by simpa using h)

/-- C3. End-to-end call trace over the `mem` provider, whose references are
never empty: when no matching record is stored, `Present` issues one query
followed by exactly one create, carrying the view of the decoded
configuration, the fqdn without its trailing dot, the key as text and ttl 0,
and no delete; the `CleanUp` that follows issues one query followed by exactly
one delete, of the reference the provider gave the created record, and no
create. -/
theorem present_cleanup_trace (unmarshal : String → providerConfig → providerConfig × error)
    (secretsGet : String → String → Secret × error)
    (newConnector : HostConfig → AuthConfig → TransportConfig → Except String κ)
    (alloc : List RecordTXT → RecordTXT → String) (notFound : error)
    (ch : ChallengeRequest) (w : World (List RecordTXT)) (cfg0 cfg : providerConfig) (c : κ)
    (hcfg : loadConfig unmarshal ch.Config = (cfg0, none))
    (hcl : newInfobloxClient (memEnv unmarshal secretsGet newConnector alloc notFound) cfg0
            ch.ResourceNamespace = (cfg, .ok c))
    (hne : ∀ st obj, alloc st obj ≠ "")
    (hnone : mem.matching cfg.View (strings.TrimSuffix ch.ResolvedFQDN ".") ch.Key w.st = []) :
    let E := memEnv unmarshal secretsGet newConnector alloc notFound
    let name := strings.TrimSuffix ch.ResolvedFQDN "."
    let obj : RecordTXT :=
      { Ref := "", View := cfg.View, Zone := "", Name := name, Text := ch.Key, Ttl := 0,
        UseTtl := false, Comment := "", Ea := [] }
    let ref := (mem.CreateObject alloc obj w.st).1.1
    let p := Present E ch w
    let cl := CleanUp E ch p.2
    cfg.View = cfg0.View ∧
    p.1 = none ∧
    p.2.calls = w.calls ++
      [Call.getObject "" (recordQuery cfg.View name ch.Key), Call.createObject obj] ∧
    p.2.st = w.st ++ [{ obj with Ref := ref }] ∧
    cl.1 = none ∧
    cl.2.calls = p.2.calls ++
      [Call.getObject "" (recordQuery cfg.View name ch.Key), Call.deleteObject ref] := by
  intro E name obj ref p cl
  have h1 : p = _ :=
    Present_mem_absent unmarshal secretsGet newConnector alloc notFound ch w cfg0 cfg c hcfg hcl
      hnone
  have hst : p.2.st = w.st ++ [{ obj with Ref := ref }] := by rw [h1]; rfl
  have hm : mem.matching cfg.View (strings.TrimSuffix ch.ResolvedFQDN ".") ch.Key p.2.st
      = [{ obj with Ref := ref }] := by
    rw [hst, mem.matching_append, hnone, List.nil_append]
    exact mem.matching_single _ _ _ _
  have h3 : cl = _ :=
    CleanUp_mem_present unmarshal secretsGet newConnector alloc notFound ch p.2 cfg0 cfg c
      _ [] hcfg hcl hm (hne w.st _)
  have hv : cfg.View = cfg0.View := by
    have := newInfobloxClient_View E cfg0 ch.ResourceNamespace
    rw [hcl] at this
    exact this
  exact ⟨hv, by rw [h1], by rw [h1]; rfl, hst, by rw [h3], by rw [h3]⟩

end solver

namespace solver

variable {κ σ : Type}

/-- Witness for C1: `foo.com.` with key `abc` at an empty provider. -/
theorem present_idempotent_witness :
    mem.matching "internal" "foo.com" "abc" demo.world0.st = [] ∧
    (Present demo.env demo.request (Present demo.env demo.request demo.world0).2).1 = none ∧
    (Present demo.env demo.request (Present demo.env demo.request demo.world0).2).2.st
      = [demo.created] ∧
    (Present demo.env demo.request (Present demo.env demo.request demo.world0).2).2.calls
      = (Present demo.env demo.request demo.world0).2.calls ++
          [Call.getObject "" (recordQuery "internal" "foo.com" "abc")] := by
  have h := present_idempotent demo.Unmarshal (kube.SecretsGet demo.store) demo.NewConnector
    mem.longRef none demo.request demo.world0 demo.cfg0 demo.cfg demo.conn (by rfl) (by rfl)
    (fun st obj => (mem.longRef_fresh st obj).1) (by rfl)
  exact ⟨by rfl, h.2.1, h.2.2.2.1.trans h.2.2.1, h.2.2.2.2.2⟩

/-- Witness for C2: keys `abc` and `xyz` for `foo.com.` at an empty provider. -/
theorem cleanup_disambiguates_by_key_witness :
    demo.request.Key ≠ "xyz" ∧
    (CleanUp demo.env demo.request
      (Present demo.env { demo.request with Key := "xyz" }
        (Present demo.env demo.request demo.world0).2).2).2.st
      = [{ Ref := "rr", View := "internal", Zone := "", Name := "foo.com", Text := "xyz",
           Ttl := 0, UseTtl := false, Comment := "", Ea := [] }] := by
  have h := cleanup_disambiguates_by_key demo.Unmarshal (kube.SecretsGet demo.store)
    demo.NewConnector mem.longRef none demo.request "xyz" demo.world0 demo.cfg0 demo.cfg
    demo.conn (by rfl) (by rfl) mem.longRef_fresh (by decide) (by rfl) (by rfl)
  exact ⟨by decide, h.2.2.2.2.2.2.2.2.2.1⟩

/-- Witness for C3: `foo.com.` with key `abc` gives a create for name `foo.com`
and text `abc`, then a delete of the created record's reference. -/
theorem present_cleanup_trace_witness :
    (Present demo.env demo.request demo.world0).2.calls
      = [Call.getObject "" (recordQuery "internal" "foo.com" "abc"),
         Call.createObject (NewRecordTXT "internal" "" "foo.com" "abc" 0 false "" [])] ∧
    (Present demo.env demo.request demo.world0).2.st = [demo.created] ∧
    (CleanUp demo.env demo.request (Present demo.env demo.request demo.world0).2).2.calls
      = (Present demo.env demo.request demo.world0).2.calls ++
          [Call.getObject "" (recordQuery "internal" "foo.com" "abc"),
           Call.deleteObject demo.created.Ref] := by
  have h := present_cleanup_trace demo.Unmarshal (kube.SecretsGet demo.store) demo.NewConnector
    mem.longRef none demo.request demo.world0 demo.cfg0 demo.cfg demo.conn (by rfl) (by rfl)
    (fun st obj => (mem.longRef_fresh st obj).1) (by rfl)
  exact ⟨h.2.2.1, h.2.2.2.1, h.2.2.2.2.2⟩

/-- C4, as the code has it. With the configuration decoded and the connector
built, an error from the provider query does not stop `Present`: the error is
dropped; if the query still gave a non-empty reference `Present` returns no
error after that one query, and otherwise it issues one create and returns
what the create returned. -/
theorem present_query_error_not_fatal (E : Env κ σ) (ch : ChallengeRequest) (w : World σ)
    (cfg0 cfg : providerConfig) (c : κ) (e : String)
    (hcfg : loadConfig E.Unmarshal ch.Config = (cfg0, none))
    (hcl : newInfobloxClient E cfg0 ch.ResourceNamespace = (cfg, .ok c))
    (hq : (checkForRecord E c cfg.View (strings.TrimSuffix ch.ResolvedFQDN ".") ch.Key w).1.2
            = some e) :
    let name := strings.TrimSuffix ch.ResolvedFQDN "."
    let chk := checkForRecord E c cfg.View name ch.Key w
    let obj := NewRecordTXT cfg.View "" name ch.Key 0 false "" []
    chk.1.2 = some e ∧
    (chk.1.1 ≠ "" →
      Present E ch w = (none, chk.2) ∧
      chk.2.calls = w.calls ++ [Call.getObject "" (recordQuery cfg.View name ch.Key)]) ∧
    (chk.1.1 = "" →
      Present E ch w =
        ((E.CreateObject c obj chk.2.st).1.2,
         { st := (E.CreateObject c obj chk.2.st).2,
           calls := w.calls ++ [Call.getObject "" (recordQuery cfg.View name ch.Key),
                                Call.createObject obj] })) := by
  intro name chk obj
  have hw := checkForRecord_world E c cfg.View name ch.Key w
  refine ⟨hq, ?_, ?_⟩
  · intro h
    refine ⟨?_, by rw [hw]⟩
    rw [Present_eq E ch w cfg0 cfg c hcfg hcl]
    exact if_pos h
  · intro h
    rw [Present_eq E ch w cfg0 cfg c hcfg hcl, if_neg (not_not.mpr h)]
    have hc : chk.2.calls = w.calls ++ [Call.getObject "" (recordQuery cfg.View name ch.Key)] :=
      congrArg World.calls hw
    show ((createTXTRecord E c name ch.Key cfg.View chk.2).1.2,
      (createTXTRecord E c name ch.Key cfg.View chk.2).2) = _
    simp only [createTXTRecord, hc, List.append_assoc, List.singleton_append]

/-- Counterexample to C4: the provider query fails, yet `Present` returns no
error and issues a create. -/
theorem present_query_failure_counterexample :
    loadConfig demo.queryFailsEnv.Unmarshal demo.request.Config = (demo.cfg0, none) ∧
    newInfobloxClient demo.queryFailsEnv demo.cfg0 demo.request.ResourceNamespace
      = (demo.cfg, .ok demo.conn) ∧
    (checkForRecord demo.queryFailsEnv demo.conn "internal" "foo.com" "abc" demo.world0).1
      = ("", some "connection refused") ∧
    (Present demo.queryFailsEnv demo.request demo.world0).1 = none ∧
    (Present demo.queryFailsEnv demo.request demo.world0).2.calls
      = [Call.getObject "" (recordQuery "internal" "foo.com" "abc"),
         Call.createObject (NewRecordTXT "internal" "" "foo.com" "abc" 0 false "" [])] :=
  ⟨by rfl, by rfl, by rfl, by rfl, by rfl⟩

/-- Witness for the amended C4, at the provider whose queries fail. -/
theorem present_query_error_not_fatal_witness :
    (checkForRecord demo.queryFailsEnv demo.conn "internal" "foo.com" "abc" demo.world0).1.2
      = some "connection refused" ∧
    Present demo.queryFailsEnv demo.request demo.world0 =
      (none, { st := [demo.created],
               calls := [Call.getObject "" (recordQuery "internal" "foo.com" "abc"),
                 Call.createObject (NewRecordTXT "internal" "" "foo.com" "abc" 0 false "" [])] }) := by
  have h := present_query_error_not_fatal demo.queryFailsEnv demo.request demo.world0
    demo.cfg0 demo.cfg demo.conn "connection refused" (by rfl) (by rfl) (by rfl)
  exact ⟨h.1, h.2.2 (by rfl)⟩

end solver

namespace solver

variable {κ σ : Type}

/-- C5, at the failing input: the secret `infoblox-credentials` exists in
namespace `default` and its data has no entry `token`; `getSecret` returns the
empty string and no error. -/
theorem getSecret_missing_key_returns_no_error :
    (kube.SecretsGet demo.store "default" "infoblox-credentials").2 = none ∧
    (kube.SecretsGet demo.store "default" "infoblox-credentials").1.Data.lookup "token" = none ∧
    getSecret demo.env { Name := "infoblox-credentials", Key := "token" } "default"
      = ("", none) ∧
    getSecret demo.env { Name := "no-such-secret", Key := "token" } "default"
      = ("", some "secrets \"no-such-secret\" not found") :=
  ⟨by rfl, by rfl, by rfl, by rfl⟩

/-- C6, at the failing input: for an absent configuration, and for a
configuration that gives view, host and secret references and omits
`sslVerify`, `loadConfig` returns no error and `SslVerify` is `false`, although
the field's `default` tag says `true`; `newInfobloxClient` passes `"false"` to
the transport configuration. -/
theorem sslVerify_default_is_false :
    providerConfig.tagGet "SslVerify" "default" = "true" ∧
    (∀ unmarshal, loadConfig unmarshal none = (providerConfig.zero, none)) ∧
    providerConfig.zero.SslVerify = false ∧
    loadConfig demo.Unmarshal (some demo.rawConfig) = (demo.cfg0, none) ∧
    demo.cfg0.SslVerify = false ∧
    newInfobloxClient demo.env demo.cfg0 "default" =
      (demo.cfg,
       .ok ({ Scheme := "https", Host := "ib.example.com", Version := "2.8", Port := "443" },
            { Username := "admin", Password := "s3cret\n" },
            NewTransportConfig "false" 60 10)) :=
  ⟨by rfl, fun _ => rfl, by rfl, by rfl, by rfl, by rfl⟩

/-- C7, as the code has it. Defaulting of port, version and scheme happens
after both credentials are read. For every decoder, configuration (absent or
not) and namespace: when both credentials resolve, `newInfobloxClient` on the
configuration `loadConfig` returned builds the connector from a host
configuration with scheme `https`, with the port of the configuration, or
`443` when that is empty, and with its version, or `2.8` when that is empty,
and a non-empty port or version is kept; when reading a credential returns an
error, `newInfobloxClient` returns that error, builds nothing and leaves the
configuration as decoded. An absent configuration is the zero value, whose
secret references are empty. -/
theorem defaulting_port_version_scheme (E : Env κ σ) (cfgJSON : Option String)
    (nspace : String) :
    let cfg := (loadConfig E.Unmarshal cfgJSON).1
    let port := if cfg.Port = "" then "443" else cfg.Port
    let version := if cfg.Version = "" then "2.8" else cfg.Version
    (∀ u p : String,
      getSecret E cfg.UsernameSecretRef nspace = (u, none) →
      getSecret E cfg.PasswordSecretRef nspace = (p, none) →
      newInfobloxClient E cfg nspace =
        ({ cfg with Port := port, Version := version },
         E.NewConnector { Scheme := "https", Host := cfg.Host, Version := version, Port := port }
           { Username := u, Password := p }
           (NewTransportConfig (strconv.FormatBool cfg.SslVerify) 60 10))) ∧
    (cfg.Port = "" → port = "443") ∧ (cfg.Version = "" → version = "2.8") ∧
    (cfg.Port ≠ "" → port = cfg.Port) ∧ (cfg.Version ≠ "" → version = cfg.Version) ∧
    (cfgJSON = none → cfg = providerConfig.zero) ∧
    (∀ e : String, (getSecret E cfg.UsernameSecretRef nspace).2 = some e →
      newInfobloxClient E cfg nspace = (cfg, .error e)) ∧
    (∀ e : String, (getSecret E cfg.UsernameSecretRef nspace).2 = none →
      (getSecret E cfg.PasswordSecretRef nspace).2 = some e →
      newInfobloxClient E cfg nspace = (cfg, .error e)) := by
  intro cfg port version
  refine ⟨fun u p hu hp => newInfobloxClient_of_secrets E cfg nspace u p hu hp,
    fun h => if_pos h, fun h => if_pos h, fun h => if_neg h,
    fun h => if_neg h, ?_, fun e he => newInfobloxClient_of_username_error E cfg nspace e he,
    fun e hu he => newInfobloxClient_of_password_error E cfg nspace e hu he⟩
  intro h
  subst h
  rfl

/-- Counterexample to C7: for an absent configuration the secret references
are empty, the secret lookup fails, and `newInfobloxClient` returns the error
with port and version still empty. -/
theorem defaulting_absent_config_counterexample :
    loadConfig demo.env.Unmarshal none = (providerConfig.zero, none) ∧
    newInfobloxClient demo.env providerConfig.zero "default"
      = (providerConfig.zero, .error "resource name may not be empty") ∧
    (newInfobloxClient demo.env (loadConfig demo.env.Unmarshal none).1 "default").1.Port = "" ∧
    (newInfobloxClient demo.env (loadConfig demo.env.Unmarshal none).1 "default").1.Version
      = "" :=
  ⟨by rfl, by rfl, by rfl, by rfl⟩

/-- Witness for C7: the configuration without port, version and scheme and the
one giving them as empty strings both resolve to `443`, `2.8` and `https`; the
one with `8443` and `2.11` keeps them; the absent one stops at the user name. -/
theorem defaulting_port_version_scheme_witness :
    (newInfobloxClient demo.env (loadConfig demo.Unmarshal (some demo.rawConfig)).1 "default").2
      = .ok ({ Scheme := "https", Host := "ib.example.com", Version := "2.8", Port := "443" },
             { Username := "admin", Password := "s3cret\n" },
             NewTransportConfig "false" 60 10) ∧
    (newInfobloxClient demo.env (loadConfig demo.Unmarshal (some demo.rawConfigEmpty)).1
        "default").2
      = .ok ({ Scheme := "https", Host := "ib.example.com", Version := "2.8", Port := "443" },
             { Username := "admin", Password := "s3cret\n" },
             NewTransportConfig "false" 60 10) ∧
    (newInfobloxClient demo.env (loadConfig demo.Unmarshal (some demo.rawConfigPort)).1
        "default").2
      = .ok ({ Scheme := "https", Host := "ib.example.com", Version := "2.11", Port := "8443" },
             { Username := "admin", Password := "s3cret\n" },
             NewTransportConfig "false" 60 10) ∧
    newInfobloxClient demo.env (loadConfig demo.Unmarshal none).1 "default"
      = ((loadConfig demo.Unmarshal none).1, .error "resource name may not be empty") := by
  have h1 := (defaulting_port_version_scheme demo.env (some demo.rawConfig) "default").1
    "admin" "s3cret\n" (by rfl) (by rfl)
  have h2 := (defaulting_port_version_scheme demo.env (some demo.rawConfigEmpty) "default").1
    "admin" "s3cret\n" (by rfl) (by rfl)
  have h3 := (defaulting_port_version_scheme demo.env (some demo.rawConfigPort) "default").1
    "admin" "s3cret\n" (by rfl) (by rfl)
  have h4 := (defaulting_port_version_scheme demo.env none "default").2.2.2.2.2.2.1
    "resource name may not be empty" (by rfl)
  exact ⟨congrArg Prod.snd h1, congrArg Prod.snd h2, congrArg Prod.snd h3, h4⟩

/-- C8, as the code has it. With the configuration decoded and the connector
built, when the provider query returns no record, whether or not it reports an
error, `CleanUp` returns no error and issues that one query and nothing else:
no delete and no create. -/
theorem cleanup_nothing_to_delete (E : Env κ σ) (ch : ChallengeRequest) (w : World σ)
    (cfg0 cfg : providerConfig) (c : κ)
    (hcfg : loadConfig E.Unmarshal ch.Config = (cfg0, none))
    (hcl : newInfobloxClient E cfg0 ch.ResourceNamespace = (cfg, .ok c))
    (hrec : (E.GetObject c (NewRecordTXT "" "" "" "" 0 false "" []) ""
              (recordQuery cfg.View (strings.TrimSuffix ch.ResolvedFQDN ".") ch.Key) w.st).1.1
            = []) :
    CleanUp E ch w =
      (none,
       { st := (E.GetObject c (NewRecordTXT "" "" "" "" 0 false "" []) ""
                 (recordQuery cfg.View (strings.TrimSuffix ch.ResolvedFQDN ".") ch.Key) w.st).2,
         calls := w.calls ++
           [Call.getObject "" (recordQuery cfg.View (strings.TrimSuffix ch.ResolvedFQDN ".")
              ch.Key)] }) := by
  rw [CleanUp_eq E ch w cfg0 cfg c hcfg hcl,
    if_pos (checkForRecord_nil E c _ _ _ w hrec), checkForRecord_world]

/-- Counterexample to C8: the provider query reports an error and still hands
back the stored record; `CleanUp` issues a delete of its reference. -/
theorem cleanup_query_failure_counterexample :
    loadConfig demo.queryFailsLateEnv.Unmarshal demo.request.Config = (demo.cfg0, none) ∧
    newInfobloxClient demo.queryFailsLateEnv demo.cfg0 demo.request.ResourceNamespace
      = (demo.cfg, .ok demo.conn) ∧
    (checkForRecord demo.queryFailsLateEnv demo.conn "internal" "foo.com" "abc"
        { st := [demo.created], calls := [] }).1
      = ("r", some "cannot unmarshal") ∧
    (CleanUp demo.queryFailsLateEnv demo.request { st := [demo.created], calls := [] }).2.calls
      = [Call.getObject "" (recordQuery "internal" "foo.com" "abc"), Call.deleteObject "r"] ∧
    (CleanUp demo.queryFailsLateEnv demo.request { st := [demo.created], calls := [] }).2.st
      = [] :=
  ⟨by rfl, by rfl, by rfl, by rfl, by rfl⟩

/-- Witness for the amended C8: a failed query that returns nothing, and a
second `CleanUp` after the record is gone. -/
theorem cleanup_nothing_to_delete_witness :
    CleanUp demo.queryFailsEnv demo.request { st := [demo.created], calls := [] } =
      (none, { st := [demo.created],
               calls := [Call.getObject "" (recordQuery "internal" "foo.com" "abc")] }) ∧
    CleanUp demo.env demo.request demo.world0 =
      (none, { st := [],
               calls := [Call.getObject "" (recordQuery "internal" "foo.com" "abc")] }) :=
  ⟨cleanup_nothing_to_delete demo.queryFailsEnv demo.request
      { st := [demo.created], calls := [] } demo.cfg0 demo.cfg demo.conn (by rfl) (by rfl)
      (by rfl),
   cleanup_nothing_to_delete demo.env demo.request demo.world0 demo.cfg0 demo.cfg demo.conn
      (by rfl) (by rfl) (by rfl)⟩

end solver

namespace solver

variable {κ σ : Type}

/-- The reference `checkForRecord` returns: that of the first record the query
handed back, and the empty string when it handed back none. -/
theorem checkForRecord_ref (E : Env κ σ) (c : κ) (view name text : String) (w : World σ) :
    (checkForRecord E c view name text w).1.1 =
      match (E.GetObject c (NewRecordTXT "" "" "" "" 0 false "" []) ""
              (recordQuery view name text) w.st).1.1 with
      | r :: _ => r.Ref
      | [] => "" := by
  simp only [checkForRecord, recordQuery]
  split <;> rfl

/-- C9. FQDN normalization: with the configuration decoded and the connector
built, `Present` and `CleanUp` always query the provider, and the record name
in that query, and in the create `Present` issues when the query gave no
reference, is `strings.TrimSuffix fqdn "."`; the delete of `CleanUp` carries
the reference that query gave. The function removes exactly one trailing dot
and leaves a string without a trailing dot unchanged, so for a name `n` not
ending in a dot the requests with fqdn `n ++ "."` and with fqdn `n` run
identically. -/
theorem fqdn_normalization (E : Env κ σ) (ch : ChallengeRequest) (w : World σ)
    (cfg0 cfg : providerConfig) (c : κ)
    (hcfg : loadConfig E.Unmarshal ch.Config = (cfg0, none))
    (hcl : newInfobloxClient E cfg0 ch.ResourceNamespace = (cfg, .ok c)) :
    let name := strings.TrimSuffix ch.ResolvedFQDN "."
    let q : QueryParams :=
      { forceProxy := false,
        searchFields := [("name", name), ("text", ch.Key), ("view", cfg0.View)] }
    let obj : RecordTXT :=
      { Ref := "", View := cfg0.View, Zone := "", Name := name, Text := ch.Key, Ttl := 0,
        UseTtl := false, Comment := "", Ea := [] }
    let ref : String :=
      match (E.GetObject c (NewRecordTXT "" "" "" "" 0 false "" []) "" q w.st).1.1 with
      | r :: _ => r.Ref
      | [] => ""
    (Present E ch w).2.calls =
      w.calls ++ Call.getObject "" q :: (if ref = "" then [Call.createObject obj] else []) ∧
    (CleanUp E ch w).2.calls =
      w.calls ++ Call.getObject "" q :: (if ref = "" then [] else [Call.deleteObject ref]) ∧
    (∀ n : String, strings.TrimSuffix (n ++ ".") "." = n) ∧
    (∀ n : String, strings.HasSuffix n "." = false →
      strings.TrimSuffix n "." = n ∧
      Present E { ch with ResolvedFQDN := n ++ "." } w
        = Present E { ch with ResolvedFQDN := n } w ∧
      CleanUp E { ch with ResolvedFQDN := n ++ "." } w
        = CleanUp E { ch with ResolvedFQDN := n } w) := by
  intro name q obj ref
  have hv : cfg.View = cfg0.View := by
    have := newInfobloxClient_View E cfg0 ch.ResourceNamespace
    rw [hcl] at this
    exact this
  have hr : (checkForRecord E c cfg.View name ch.Key w).1.1 = ref := by
    rw [checkForRecord_ref, hv]; rfl
  have hw : (checkForRecord E c cfg.View name ch.Key w).2.calls
      = w.calls ++ [Call.getObject "" q] := by
    rw [checkForRecord_world, hv]; rfl
  refine ⟨?_, ?_, fun n => strings.TrimSuffix_append n ".", ?_⟩
  · rw [Present_eq E ch w cfg0 cfg c hcfg hcl]
    show (if (checkForRecord E c cfg.View name ch.Key w).1.1 ≠ "" then _ else _ :
      error × World σ).2.calls = _
    rw [hr]
    by_cases h : ref = ""
    · rw [if_neg (not_not.mpr h), if_pos h]
      show (checkForRecord E c cfg.View name ch.Key w).2.calls
        ++ [Call.createObject (NewRecordTXT cfg.View "" name ch.Key 0 false "" [])] = _
      rw [hw, hv, List.append_assoc]
      rfl
    · rw [if_pos h, if_neg h]
      exact hw
  · rw [CleanUp_eq E ch w cfg0 cfg c hcfg hcl]
    show (if (checkForRecord E c cfg.View name ch.Key w).1.1 = "" then _ else _ :
      error × World σ).2.calls = _
    rw [hr]
    by_cases h : ref = ""
    · rw [if_pos h, if_pos h]
      exact hw
    · rw [if_neg h, if_neg h]
      show (checkForRecord E c cfg.View name ch.Key w).2.calls ++ [Call.deleteObject ref] = _
      rw [hw, List.append_assoc]
      rfl
  · intro n hn
    have h1 := strings.TrimSuffix_append n "."
    have h2 := strings.TrimSuffix_of_not_HasSuffix n "." hn
    exact ⟨h2, by simp only [Present, h1, h2], by simp only [CleanUp, h1, h2]⟩

/-- Witness for C9: the requests for `_acme-challenge.example.com.` and for
`_acme-challenge.example.com` both query and create under the record name
`_acme-challenge.example.com`, and both clean up by querying that name and
deleting the reference found. -/
theorem fqdn_normalization_witness :
    (Present demo.env (demo.acme "_acme-challenge.example.com.") demo.world0).2.calls
      = [Call.getObject "" (recordQuery "internal" "_acme-challenge.example.com" "abc"),
         Call.createObject
           (NewRecordTXT "internal" "" "_acme-challenge.example.com" "abc" 0 false "" [])] ∧
    (Present demo.env (demo.acme "_acme-challenge.example.com") demo.world0).2.calls
      = [Call.getObject "" (recordQuery "internal" "_acme-challenge.example.com" "abc"),
         Call.createObject
           (NewRecordTXT "internal" "" "_acme-challenge.example.com" "abc" 0 false "" [])] ∧
    (CleanUp demo.env (demo.acme "_acme-challenge.example.com.")
        { st := [demo.acmeRecord], calls := [] }).2.calls
      = [Call.getObject "" (recordQuery "internal" "_acme-challenge.example.com" "abc"),
         Call.deleteObject "r"] ∧
    (CleanUp demo.env (demo.acme "_acme-challenge.example.com")
        { st := [demo.acmeRecord], calls := [] }).2.calls
      = [Call.getObject "" (recordQuery "internal" "_acme-challenge.example.com" "abc"),
         Call.deleteObject "r"] ∧
    strings.HasSuffix "_acme-challenge.example.com" "." = false ∧
    Present demo.env (demo.acme ("_acme-challenge.example.com" ++ ".")) demo.world0
      = Present demo.env (demo.acme "_acme-challenge.example.com") demo.world0 ∧
    CleanUp demo.env (demo.acme ("_acme-challenge.example.com" ++ "."))
        { st := [demo.acmeRecord], calls := [] }
      = CleanUp demo.env (demo.acme "_acme-challenge.example.com")
        { st := [demo.acmeRecord], calls := [] } := by
  have hd := fqdn_normalization demo.env (demo.acme "_acme-challenge.example.com.")
    demo.world0 demo.cfg0 demo.cfg demo.conn (by rfl) (by rfl)
  have hn := fqdn_normalization demo.env (demo.acme "_acme-challenge.example.com")
    demo.world0 demo.cfg0 demo.cfg demo.conn (by rfl) (by rfl)
  have cd := fqdn_normalization demo.env (demo.acme "_acme-challenge.example.com.")
    { st := [demo.acmeRecord], calls := [] } demo.cfg0 demo.cfg demo.conn (by rfl) (by rfl)
  have cn := fqdn_normalization demo.env (demo.acme "_acme-challenge.example.com")
    { st := [demo.acmeRecord], calls := [] } demo.cfg0 demo.cfg demo.conn (by rfl) (by rfl)
  exact ⟨hd.1, hn.1, cd.2.1, cn.2.1, by rfl,
    (hd.2.2.2 "_acme-challenge.example.com" (by rfl)).2.1,
    (cd.2.2.2 "_acme-challenge.example.com" (by rfl)).2.2⟩

/-- C10, as the code has it. When the secret is found and holds the key,
`getSecret` returns the stored value with one trailing newline removed, if it
has one, and no error: a value `u ++ "\n"` comes back as `u` (which may itself
end in a newline), a value with no trailing newline comes back unchanged. -/
theorem getSecret_trims_one_newline (E : Env κ σ) (sel : cmmeta.SecretKeySelector)
    (nspace v : String)
    (hget : (E.SecretsGet nspace sel.Name).2 = none)
    (hkey : (E.SecretsGet nspace sel.Name).1.Data.lookup sel.Key = some v) :
    getSecret E sel nspace = (strings.TrimSuffix v "\n", none) ∧
    (∀ u : String, v = u ++ "\n" → getSecret E sel nspace = (u, none)) ∧
    (strings.HasSuffix v "\n" = false → getSecret E sel nspace = (v, none)) := by
  have h := getSecret_of_found E sel nspace v hget hkey
  refine ⟨h, ?_, ?_⟩
  · intro u hu
    rw [h, hu, strings.TrimSuffix_append]
  · intro hv
    rw [h, strings.TrimSuffix_of_not_HasSuffix v "\n" hv]

/-- Counterexample to C10: the stored password ends in two newlines and the
value `getSecret` returns still ends in one. -/
theorem getSecret_newline_counterexample :
    (kube.SecretsGet demo.store "default" "infoblox-credentials").1.Data.lookup "password"
      = some "s3cret\n\n" ∧
    getSecret demo.env { Name := "infoblox-credentials", Key := "password" } "default"
      = ("s3cret\n", none) ∧
    strings.HasSuffix
      (getSecret demo.env { Name := "infoblox-credentials", Key := "password" } "default").1
      "\n" = true :=
  ⟨by rfl, by rfl, by rfl⟩

/-- Witness for the amended C10: the stored user name `admin` followed by one
newline comes back as `admin`. -/
theorem getSecret_trims_one_newline_witness :
    getSecret demo.env { Name := "infoblox-credentials", Key := "username" } "default"
      = ("admin", none) :=
  (getSecret_trims_one_newline demo.env { Name := "infoblox-credentials", Key := "username" }
    "default" "admin\n" (by rfl) (by rfl)).2.1 "admin" (by rfl)

end solver
